import Mathlib

/-!
Verification of the persistence-layer behaviour exercised by `src/db.py`
(a SQLAlchemy tutorial script).  The script itself contains no algorithm:
every behaviour it demonstrates (transactions, unit-of-work flush ordering,
identity map, cursor results, SQL filtering) is supplied by the underlying
library, whose semantics the specification describes.  We embed:

* the rows of `some_table` and the textual-SQL connection/transaction model
  (`engine.connect()` / `engine.begin()` blocks, lines 19-69);
* the single-pass result cursor (lines 35-52);
* the filtered / ordered SELECT statements (lines 57-60 and 82-86);
* the two `address` column declarations present in the script
  (Core `address_table`, lines 111-119, and the declarative `Address`
  class, lines 160-171);
* the ORM unit-of-work session: entities, pending sets, flush with
  foreign-key-dependency insert ordering, commit, rollback, get (identity
  map), delete and close (lines 270-388, spec sections 4.1-4.2);
* the two session-acquisition styles appearing in the script: the scoped
  `with Session(engine) as session:` block (line 83) and the manual
  `session = Session(engine)` / `session.close()` pair (lines 277/322).
-/

/-- A row of `some_table (x int, y int)` created at line 20 of `src/db.py`. -/
structure SomeRow where
  x : Int
  y : Int
deriving DecidableEq, Repr

/-- Modelled from the spec: a raw connection holds the committed table
state plus the changes pending inside the current transaction; the spec
states "Side effect: none until an explicit commit is issued"
(section 4.1). -/
structure RawConn where
  committed : List SomeRow
  pending : List SomeRow
deriving DecidableEq, Repr

/-- `conn.execute(text("INSERT INTO some_table ..."), rows)`: the inserted
rows join the pending set of the transaction; the committed table is not
touched. -/
def RawConn.execInsert (c : RawConn) (rows : List SomeRow) : RawConn :=
  { c with pending := c.pending ++ rows }

/-- `conn.commit()`: the pending changes become part of the committed
table state. -/
def RawConn.commitConn (c : RawConn) : RawConn :=
  { committed := c.committed ++ c.pending, pending := [] }

/-- Modelled from the spec: the `with engine.begin() as conn:` block
(line 28) — "auto-commit blocks commit on successful exit, roll back on
exception" (spec section 4.1).  The body receives a fresh transaction over
the current table state and either finishes normally or raises. -/
def beginBlock (t : List SomeRow) (body : RawConn → Except Unit RawConn) :
    List SomeRow :=
  match body { committed := t, pending := [] } with
  | .ok c => c.commitConn.committed
  | .error _ => t

/-- Modelled from the spec: the result object returned by
`conn.execute(text("SELECT ..."))` — a "lazy sequence of rows"
(spec section 4.1), i.e. a forward-only cursor holding the rows not yet
consumed. -/
structure CursorResult where
  remaining : List SomeRow
deriving DecidableEq, Repr

/-- Consume every row still held by the cursor, in order. -/
def consumeRows : List SomeRow → List SomeRow × CursorResult
  | [] => ([], ⟨[]⟩)
  | a :: rest =>
    let p := consumeRows rest
    (a :: p.1, p.2)

/-- One complete `for row in result:` loop: it yields every row the cursor
still holds and leaves the cursor exhausted. -/
def CursorResult.iterateAll (r : CursorResult) : List SomeRow × CursorResult :=
  consumeRows r.remaining

/-- Modelled from the spec: `SELECT x, y FROM some_table WHERE y > :y`
(lines 58 and 82) — "returns only rows satisfying the predicate"
(spec section 8). -/
def selectWhereYGt (rows : List SomeRow) (y0 : Int) : List SomeRow :=
  rows.filter (fun r => y0 < r.y)

/-- The lexicographic order `ORDER BY x, y` requested at line 82. -/
def rowLe (r s : SomeRow) : Prop :=
  r.x < s.x ∨ (r.x = s.x ∧ r.y ≤ s.y)

instance : DecidableRel rowLe := fun r s => by
  unfold rowLe; infer_instance

instance : IsTotal SomeRow rowLe := by
  constructor; intro a b; unfold rowLe; omega

instance : IsTrans SomeRow rowLe := by
  constructor; intro a b c; unfold rowLe; omega

/-- Modelled from the spec: `ORDER BY x, y` — the rows are "ordered as
requested" (spec section 8). -/
def orderByXY (rows : List SomeRow) : List SomeRow :=
  rows.insertionSort rowLe

/-- A column declaration as passed to `Column(...)` in `src/db.py`. -/
structure ColumnDef where
  name : String
  isPrimaryKey : Bool
  nullable : Bool
  foreignKey : Option String
deriving DecidableEq, Repr

/-- The Core `address_table` declaration, lines 111-119: `user_id` is
declared with `nullable=False`; `email_address` with `nullable=False`;
the primary key is implicitly NOT NULL. -/
def address_table : List ColumnDef :=
  [ { name := "id", isPrimaryKey := true, nullable := false, foreignKey := none },
    { name := "user_id", isPrimaryKey := false, nullable := false,
      foreignKey := some "user_account.id" },
    { name := "email_address", isPrimaryKey := false, nullable := false,
      foreignKey := none } ]

/-- The declarative `Address` class, lines 160-171: `user_id` is declared
as `Column(Integer, ForeignKey("user_account.id"))` with no `nullable`
argument, so it takes the library default for a non-primary-key column,
nullable. -/
def addressClassColumns : List ColumnDef :=
  [ { name := "id", isPrimaryKey := true, nullable := false, foreignKey := none },
    { name := "email_address", isPrimaryKey := false, nullable := false,
      foreignKey := none },
    { name := "user_id", isPrimaryKey := false, nullable := true,
      foreignKey := some "user_account.id" } ]

/-- Whether a named column of a declaration is nullable. -/
def columnIsNullable (cols : List ColumnDef) (n : String) : Option Bool :=
  (cols.find? (fun c => c.name == n)).map ColumnDef.nullable

/-- A persisted row of `user_account` (id assigned by the database). -/
structure UserRow where
  id : Nat
  name : String
  fullname : String
deriving DecidableEq, Repr

/-- A persisted row of `address`. -/
structure AddressRow where
  id : Nat
  email_address : String
  user_id : Nat
deriving DecidableEq, Repr

/-- The committed database state for the two ORM tables, together with the
auto-increment counters that assign primary keys. -/
structure DB where
  users : List UserRow
  addresses : List AddressRow
  nextUserId : Nat
  nextAddressId : Nat
deriving DecidableEq, Repr

/-- An in-memory `Address` entity (lines 160-171): its `id` and `user_id`
are `None` until the entity is persisted / associated. -/
structure AddressEnt where
  id : Option Nat
  email_address : String
  user_id : Option Nat
deriving DecidableEq, Repr

/-- `Address(email_address=...)` (line 365): a transient entity with no
key and no owning user yet. -/
def AddressEnt.new (email : String) : AddressEnt :=
  { id := none, email_address := email, user_id := none }

/-- An in-memory `User` entity (lines 146-157): `id` is `None` until the
entity is persisted; `addresses` is its one-to-many collection. -/
structure UserEnt where
  id : Option Nat
  name : String
  fullname : String
  addresses : List AddressEnt
deriving DecidableEq, Repr

/-- `User(name=..., fullname=...)` (lines 272 and 360): a transient entity
with no key and an empty `addresses` collection. -/
def UserEnt.new (name fullname : String) : UserEnt :=
  { id := none, name := name, fullname := fullname, addresses := [] }

/-- `u1.addresses.append(a1)` (line 366). -/
def UserEnt.appendAddress (u : UserEnt) (a : AddressEnt) : UserEnt :=
  { u with addresses := u.addresses ++ [a] }

/-- A DML statement emitted by a flush, in emission order. -/
inductive Stmt where
  | insertUser (name fullname : String)
  | insertAddress (email : String) (user_id : Nat)
  | deleteUser (id : Nat)
deriving DecidableEq, Repr

/-- Modelled from the spec: flushing the `Address` entities appended to a
`User` whose assigned key is `uid` — each address INSERT carries
`user_id = uid` (spec sections 3 and 8). -/
def flushAddresses (uid : Nat) (db : DB) :
    List AddressEnt → DB × List Stmt × List AddressEnt
  | [] => (db, [], [])
  | a :: rest =>
    let aid := db.nextAddressId
    let db1 : DB :=
      { db with
        addresses := db.addresses ++ [{ id := aid, email_address := a.email_address, user_id := uid }],
        nextAddressId := aid + 1 }
    let p := flushAddresses uid db1 rest
    (p.1, .insertAddress a.email_address uid :: p.2.1,
      { a with id := some aid, user_id := some uid } :: p.2.2)

/-- Modelled from the spec: flushing one new `User` entity — the user row
is inserted first with a fresh auto-assigned key, then its dependent
address rows, "respecting foreign-key dependency order" (spec sections 2
and 3).  Returns the new database state, the emitted statements in order,
and the refreshed (now persistent) entity. -/
def flushUser (db : DB) (u : UserEnt) : DB × List Stmt × UserEnt :=
  let uid := db.nextUserId
  let db1 : DB :=
    { db with
      users := db.users ++ [{ id := uid, name := u.name, fullname := u.fullname }],
      nextUserId := uid + 1 }
  let p := flushAddresses uid db1 u.addresses
  (p.1, .insertUser u.name u.fullname :: p.2.1,
    { u with id := some uid, addresses := p.2.2 })

/-- Flush every entity of the session's `new` set, in registration order. -/
def flushNew (db : DB) : List UserEnt → DB × List Stmt × List UserEnt
  | [] => (db, [], [])
  | u :: rest =>
    let p := flushUser db u
    let q := flushNew p.1 rest
    (q.1, p.2.1 ++ q.2.1, p.2.2 :: q.2.2)

/-- Apply the pending DELETEs: the rows whose primary key was marked
deleted disappear from `user_account`. -/
def applyDeletes (db : DB) (ids : List Nat) : DB :=
  { db with users := db.users.filter (fun r => !(ids.contains r.id)) }

/-- Modelled from the spec: the ORM session / unit-of-work (spec section
4.2) — it owns the connection to the committed database state and "tracks
three sets: new, dirty (mutated), and deleted entities" (the script
exercises the new and deleted sets). -/
structure Sess where
  db : DB
  pendingNew : List UserEnt
  pendingDeleted : List Nat
  identity : List UserRow
deriving DecidableEq, Repr

/-- `Session(engine)` (line 277) over a given database state: no pending
changes, empty identity map. -/
def Sess.open (db : DB) : Sess :=
  { db := db, pendingNew := [], pendingDeleted := [], identity := [] }

/-- `session.add(u)` (line 280): the entity joins the pending `new` set;
nothing reaches the database yet. -/
def Sess.add (s : Sess) (u : UserEnt) : Sess :=
  { s with pendingNew := s.pendingNew ++ [u] }

/-- `session.delete(e)` (line 310): the fetched entity's key joins the
pending `deleted` set; nothing reaches the database yet. -/
def Sess.delete (s : Sess) (uid : Nat) : Sess :=
  { s with pendingDeleted := s.pendingDeleted ++ [uid] }

/-- Modelled from the spec: `session.commit()` (lines 283, 306, 311, 383)
— "flushes pending changes as ordered statements, then finalizes the
transaction" (spec section 4.2).  Returns the session after commit, the
statements emitted in order, and the refreshed new entities. -/
def Sess.commit (s : Sess) : Sess × List Stmt × List UserEnt :=
  let p := flushNew s.db s.pendingNew
  let db2 := applyDeletes p.1 s.pendingDeleted
  ({ s with db := db2, pendingNew := [], pendingDeleted := [] },
    p.2.1 ++ s.pendingDeleted.map Stmt.deleteUser, p.2.2)

/-- Modelled from the spec: `session.rollback()` (line 317) — "discards
all pending changes" (spec section 4.2); the committed database state is
untouched. -/
def Sess.rollback (s : Sess) : Sess :=
  { s with pendingNew := [], pendingDeleted := [] }

/-- Modelled from the spec: `session.close()` (line 322) — "performs
rollback of anything uncommitted and detaches all tracked entities"
(spec section 4.2). -/
def Sess.close (s : Sess) : Sess :=
  { s with pendingNew := [], pendingDeleted := [], identity := [] }

/-- Modelled from the spec: `session.get(User, pk)` (line 301) — "Fetching
by primary key returns the tracked instance if already loaded (identity
consistency within one session), else issues a SELECT" (spec section 4.2).
The boolean records whether a SELECT was issued against the database. -/
def Sess.get (s : Sess) (pk : Nat) : Option UserRow × Bool × Sess :=
  match s.identity.find? (fun r => r.id == pk) with
  | some r => (some r, false, s)
  | none =>
    match s.db.users.find? (fun r => r.id == pk) with
    | some r => (some r, true, { s with identity := s.identity ++ [r] })
    | none => (none, true, s)

/-- `SELECT ... FROM user_account WHERE id = pk` — lookup of a user row by
primary key in the committed state. -/
def DB.selectUserById (db : DB) (pk : Nat) : Option UserRow :=
  db.users.find? (fun r => r.id == pk)

/-- The address rows produced when flushing a list of `Address` entities
for the user whose assigned key is `uid`, with auto-increment keys
starting at `n`. -/
def addrRowsFrom (uid n : Nat) : List AddressEnt → List AddressRow
  | [] => []
  | a :: rest =>
    { id := n, email_address := a.email_address, user_id := uid } ::
      addrRowsFrom uid (n + 1) rest

lemma mem_addrRowsFrom_user_id {uid : Nat} :
    ∀ {as : List AddressEnt} {n : Nat} {r : AddressRow},
      r ∈ addrRowsFrom uid n as → r.user_id = uid := by
  intro as
  induction as with
  | nil => intro n r h; simp [addrRowsFrom] at h
  | cons a rest ih =>
    intro n r h
    rcases (by simpa [addrRowsFrom] using h) with h1 | h2
    · simp [h1]
    · exact ih h2

lemma flushAddresses_users (uid : Nat) :
    ∀ (as : List AddressEnt) (db : DB),
      (flushAddresses uid db as).1.users = db.users := by
  intro as
  induction as with
  | nil => intro db; rfl
  | cons a rest ih => intro db; simpa [flushAddresses] using ih _

lemma flushAddresses_addresses (uid : Nat) :
    ∀ (as : List AddressEnt) (db : DB),
      (flushAddresses uid db as).1.addresses =
        db.addresses ++ addrRowsFrom uid db.nextAddressId as := by
  intro as
  induction as with
  | nil => intro db; simp [flushAddresses, addrRowsFrom]
  | cons a rest ih =>
    intro db
    simp [flushAddresses, addrRowsFrom, ih]

lemma flushAddresses_stmts (uid : Nat) :
    ∀ (as : List AddressEnt) (db : DB),
      (flushAddresses uid db as).2.1 =
        as.map (fun a => Stmt.insertAddress a.email_address uid) := by
  intro as
  induction as with
  | nil => intro db; rfl
  | cons a rest ih => intro db; simp [flushAddresses, ih]

lemma flushUser_users (db : DB) (u : UserEnt) :
    (flushUser db u).1.users =
      db.users ++ [{ id := db.nextUserId, name := u.name, fullname := u.fullname }] := by
  simp [flushUser, flushAddresses_users]

lemma flushUser_addresses (db : DB) (u : UserEnt) :
    (flushUser db u).1.addresses =
      db.addresses ++ addrRowsFrom db.nextUserId db.nextAddressId u.addresses := by
  simp [flushUser, flushAddresses_addresses]

lemma flushUser_stmts (db : DB) (u : UserEnt) :
    (flushUser db u).2.1 =
      Stmt.insertUser u.name u.fullname ::
        u.addresses.map (fun a => Stmt.insertAddress a.email_address db.nextUserId) := by
  simp [flushUser, flushAddresses_stmts]

lemma applyDeletes_nil (db : DB) : applyDeletes db [] = db := by
  simp [applyDeletes]

lemma commit_single (db : DB) (u : UserEnt) :
    ((Sess.open db).add u).commit =
      ({ db := (flushUser db u).1, pendingNew := [], pendingDeleted := [],
         identity := [] },
        (flushUser db u).2.1, [(flushUser db u).2.2]) := by
  simp [Sess.open, Sess.add, Sess.commit, flushNew, applyDeletes_nil]

/-- C1: committing a session holding a User with appended Address entities
persists the user row with the fresh auto-assigned key, persists each
appended Address as a row whose `user_id` equals that key, and emits the
User's INSERT strictly before every dependent address INSERT. -/
theorem user_insert_precedes_dependent_address_inserts (db : DB) (u : UserEnt) :
    (((Sess.open db).add u).commit).2.1 =
      Stmt.insertUser u.name u.fullname ::
        u.addresses.map (fun a => Stmt.insertAddress a.email_address db.nextUserId)
    ∧ (((Sess.open db).add u).commit).1.db.users =
        db.users ++ [{ id := db.nextUserId, name := u.name, fullname := u.fullname }]
    ∧ (((Sess.open db).add u).commit).1.db.addresses =
        db.addresses ++ addrRowsFrom db.nextUserId db.nextAddressId u.addresses
    ∧ ∀ r ∈ addrRowsFrom db.nextUserId db.nextAddressId u.addresses,
        r.user_id = db.nextUserId := by
  rw [commit_single]
  exact ⟨flushUser_stmts db u, flushUser_users db u, flushUser_addresses db u,
    fun r hr => mem_addrRowsFrom_user_id hr⟩

/-- C1 witness at a concrete database and user. -/
theorem user_insert_precedes_dependent_address_inserts_witness :
    ((((Sess.open (DB.mk [] [] 6 1)).add
        ((UserEnt.new "pkrabs" "Pearl Krabs").appendAddress
          (AddressEnt.new "pearl.krabs@gmail.com"))).commit).2.1 =
      [Stmt.insertUser "pkrabs" "Pearl Krabs",
        Stmt.insertAddress "pearl.krabs@gmail.com" 6]) :=
  (user_insert_precedes_dependent_address_inserts (DB.mk [] [] 6 1)
    ((UserEnt.new "pkrabs" "Pearl Krabs").appendAddress
      (AddressEnt.new "pearl.krabs@gmail.com"))).1

/-- C2: a newly created User entity has a null id; adding it to a session
and committing assigns it the non-null auto-assigned integer primary
key. -/
theorem commit_assigns_primary_key (name fullname : String) (db : DB) :
    (UserEnt.new name fullname).id = none
    ∧ (((Sess.open db).add (UserEnt.new name fullname)).commit).2.2.map UserEnt.id =
        [some db.nextUserId] := by
  constructor
  · rfl
  · rw [commit_single]
    simp [flushUser, UserEnt.new, flushAddresses]

/-- C3: rollback discards every pending change and leaves the committed
table untouched, so insert-then-rollback is the identity on table state
and a subsequent select sees the prior row count. -/
theorem rollback_discards_pending_changes (s : Sess) (u : UserEnt) :
    (((s.add u).rollback)).db = s.db
    ∧ (((s.add u).rollback)).db.users.length = s.db.users.length
    ∧ (((s.add u).rollback)).pendingNew = []
    ∧ (((s.add u).rollback)).pendingDeleted = [] := by
  exact ⟨rfl, rfl, rfl, rfl⟩

/-- C4 counterexample: in the Core `address_table` declaration
(src/db.py lines 111-119) — the declaration from which the `address`
table is first created — `user_id` is declared `nullable=False`, not
nullable. -/
theorem core_address_table_user_id_not_null :
    columnIsNullable address_table "user_id" = some false
    ∧ ¬ columnIsNullable address_table "user_id" = some true := by
  constructor
  · rfl
  · intro h
    simp [columnIsNullable, address_table] at h

/-- C4 amended: the declarative `Address` class declares `user_id`
nullable (while the Core `address_table` declares it NOT NULL); an
Address entity's `user_id` is null before it is associated; and once a
User with its appended Addresses is committed, every newly persisted
address row's `user_id` references a persisted User's key. -/
theorem address_user_id_null_until_associated (email : String) (db : DB) (u : UserEnt) :
    columnIsNullable addressClassColumns "user_id" = some true
    ∧ columnIsNullable address_table "user_id" = some false
    ∧ (AddressEnt.new email).user_id = none
    ∧ (AddressEnt.new email).id = none
    ∧ ∀ r ∈ (((Sess.open db).add u).commit).1.db.addresses,
        r ∉ db.addresses →
        ∃ urow ∈ (((Sess.open db).add u).commit).1.db.users, urow.id = r.user_id := by
  refine ⟨rfl, rfl, rfl, rfl, ?_⟩
  intro r hr hnot
  rw [commit_single] at hr ⊢
  rw [flushUser_addresses] at hr
  rcases List.mem_append.mp hr with h | h
  · exact absurd h hnot
  · refine ⟨{ id := db.nextUserId, name := u.name, fullname := u.fullname }, ?_, ?_⟩
    · rw [flushUser_users]; simp
    · rw [mem_addrRowsFrom_user_id h]

/-- C4 witness: the amended statement applied to the script's concrete
Address entity. -/
theorem address_user_id_null_until_associated_witness :
    (AddressEnt.new "pearl.krabs@gmail.com").user_id = none :=
  (address_user_id_null_until_associated "pearl.krabs@gmail.com"
    (DB.mk [] [] 1 1) (UserEnt.new "pkrabs" "Pearl Krabs")).2.2.1

/-- C5: inside an `engine.begin()` scope no side effect reaches the
committed table before commit; the block commits automatically on a
successful exit, and on an exception it rolls back, leaving the table
state unchanged. -/
theorem begin_block_commits_on_success_rolls_back_on_exception
    (t : List SomeRow) (body : RawConn → Except Unit RawConn) :
    (∀ (c : RawConn) (rows : List SomeRow),
        (c.execInsert rows).committed = c.committed)
    ∧ (∀ c, body { committed := t, pending := [] } = .ok c →
        beginBlock t body = c.committed ++ c.pending)
    ∧ (∀ e, body { committed := t, pending := [] } = .error e →
        beginBlock t body = t) := by
  refine ⟨fun c rows => rfl, fun c h => ?_, fun e h => ?_⟩
  · simp [beginBlock, h, RawConn.commitConn]
  · simp [beginBlock, h]

/-- C5 witness: a concrete failing block leaves the concrete table
unchanged. -/
theorem begin_block_rolls_back_witness :
    beginBlock [SomeRow.mk 1 1, SomeRow.mk 2 4] (fun _ => Except.error ()) =
      [SomeRow.mk 1 1, SomeRow.mk 2 4] :=
  (begin_block_commits_on_success_rolls_back_on_exception
    [SomeRow.mk 1 1, SomeRow.mk 2 4] (fun _ => Except.error ())).2.2 () rfl

/-- C6: `session.get` returns the already-tracked instance — the very row
held in the identity map — without issuing a SELECT when an entity with
that key is loaded, and otherwise issues a SELECT against the committed
database state. -/
theorem get_returns_tracked_instance_or_selects (s : Sess) (pk : Nat) :
    (∀ r, s.identity.find? (fun x => x.id == pk) = some r →
        s.get pk = (some r, false, s))
    ∧ (s.identity.find? (fun x => x.id == pk) = none →
        (s.get pk).2.1 = true ∧ (s.get pk).1 = s.db.selectUserById pk) := by
  constructor
  · intro r h
    simp [Sess.get, h]
  · intro h
    simp only [Sess.get, h, DB.selectUserById]
    cases hf : s.db.users.find? (fun r => r.id == pk) <;> simp

/-- C6 witness: a concrete session whose identity map already tracks the
user with key 4 gets that instance back with no SELECT issued. -/
theorem get_returns_tracked_instance_witness :
    (Sess.mk (DB.mk [] [] 1 1) [] [] [UserRow.mk 4 "squidward" "Squidward Tentacles"]).get 4 =
      (some (UserRow.mk 4 "squidward" "Squidward Tentacles"), false,
        Sess.mk (DB.mk [] [] 1 1) [] [] [UserRow.mk 4 "squidward" "Squidward Tentacles"]) :=
  (get_returns_tracked_instance_or_selects
    (Sess.mk (DB.mk [] [] 1 1) [] [] [UserRow.mk 4 "squidward" "Squidward Tentacles"]) 4).1
    (UserRow.mk 4 "squidward" "Squidward Tentacles") rfl

/-- C7: `SELECT x, y FROM some_table WHERE y > :y` returns exactly the
rows whose `y` is strictly greater than the parameter and no others, and
with `ORDER BY x, y` the returned rows are sorted in that lexicographic
order (and are a permutation of the filtered rows). -/
theorem filtered_select_returns_exactly_matching_rows
    (rows : List SomeRow) (y0 : Int) :
    (∀ r, r ∈ selectWhereYGt rows y0 ↔ r ∈ rows ∧ y0 < r.y)
    ∧ List.Sorted rowLe (orderByXY (selectWhereYGt rows y0))
    ∧ (orderByXY (selectWhereYGt rows y0)).Perm (selectWhereYGt rows y0) := by
  refine ⟨fun r => ?_, ?_, ?_⟩
  · simp [selectWhereYGt, List.mem_filter]
  · exact List.sorted_insertionSort rowLe _
  · exact List.perm_insertionSort rowLe _

/-- C7 witness: the filter and ORDER BY evaluated at the script's data. -/
theorem filtered_select_witness :
    (SomeRow.mk 9 10 ∈ selectWhereYGt
        [SomeRow.mk 1 1, SomeRow.mk 2 4, SomeRow.mk 6 8, SomeRow.mk 9 10] 6
      ↔ SomeRow.mk 9 10 ∈
          [SomeRow.mk 1 1, SomeRow.mk 2 4, SomeRow.mk 6 8, SomeRow.mk 9 10]
        ∧ (6 : Int) < 10) :=
  (filtered_select_returns_exactly_matching_rows
    [SomeRow.mk 1 1, SomeRow.mk 2 4, SomeRow.mk 6 8, SomeRow.mk 9 10] 6).1
    (SomeRow.mk 9 10)

lemma selectUserById_applyDeletes (db : DB) (ids : List Nat) (pk : Nat)
    (hpk : pk ∈ ids) :
    (applyDeletes db ids).selectUserById pk = none := by
  unfold applyDeletes DB.selectUserById
  rw [List.find?_eq_none]
  intro x hx hbeq
  have hb : x.id ∉ ids := by simpa using (List.mem_filter.mp hx).2
  have hxpk : x.id = pk := by simpa using hbeq
  exact hb (hxpk ▸ hpk)

/-- C8: deleting an entity fetched by primary key and committing removes
its row: a subsequent select of `user_account` by that key returns no
row. -/
theorem delete_commit_removes_row (s : Sess) (pk : Nat) (row : UserRow)
    (h : (s.get pk).1 = some row) :
    (((((s.get pk).2.2).delete row.id).commit).1.db).selectUserById row.id = none := by
  have hmem : row.id ∈ (((s.get pk).2.2).delete row.id).pendingDeleted := by
    simp [Sess.delete]
  exact selectUserById_applyDeletes _ _ _ hmem

/-- C8 witness: fetching the concrete user with key 4, deleting it and
committing leaves no row with key 4. -/
theorem delete_commit_removes_row_witness :
    ((((((Sess.open (DB.mk [UserRow.mk 4 "squidward" "Sandy Squirrel"] [] 5 1)).get 4).2.2).delete
        (UserRow.mk 4 "squidward" "Sandy Squirrel").id).commit).1.db).selectUserById 4 = none :=
  delete_commit_removes_row
    (Sess.open (DB.mk [UserRow.mk 4 "squidward" "Sandy Squirrel"] [] 5 1)) 4
    (UserRow.mk 4 "squidward" "Sandy Squirrel") rfl

/-- The two session-acquisition styles appearing in `src/db.py`: the
scoped `with Session(engine) as session:` block at line 83, and the
manual `session = Session(engine)` at line 277, whose context is
released only by the explicit `session.close()` call at line 322. -/
inductive AcqStyle where
  | withBlock
  | manual
deriving DecidableEq, Repr

/-- The acquisition style of each ORM session the script opens, in
program order (line 83, then line 277). -/
def scriptSessionStyles : List AcqStyle := [AcqStyle.withBlock, AcqStyle.manual]

/-- Modelled from the spec: whether the session's connection-transaction
context is released when the code using it exits with the given outcome.
A with-block runs its exit handler on both the normal and the exceptional
path; the manually opened session reaches its `session.close()` call only
on the normal path — an exception raised between lines 277 and 322
propagates past the close. -/
def releasedOnExit : AcqStyle → Except Unit Unit → Bool
  | AcqStyle.withBlock, _ => true
  | AcqStyle.manual, Except.ok _ => true
  | AcqStyle.manual, Except.error _ => false

/-- C9 counterexample: the session opened at line 277 is acquired
manually, and on an exceptional exit its context is not released — so it
is false that every session of the program releases its context on every
exit path. -/
theorem manual_session_not_released_on_exception :
    AcqStyle.manual ∈ scriptSessionStyles
    ∧ releasedOnExit AcqStyle.manual (Except.error ()) = false
    ∧ ¬ (∀ st ∈ scriptSessionStyles, ∀ o, releasedOnExit st o = true) := by
  refine ⟨by simp [scriptSessionStyles], rfl, fun h => ?_⟩
  have := h AcqStyle.manual (by simp [scriptSessionStyles]) (Except.error ())
  simp [releasedOnExit] at this

/-- C9 amended: the session opened with a with-block (line 83) releases
its connection-transaction context on every exit path, normal or
exceptional; the manually opened session (line 277) releases it only on
the normal path, through the explicit `close()` at line 322. -/
theorem scoped_session_released_on_all_paths :
    (∀ o, releasedOnExit AcqStyle.withBlock o = true)
    ∧ releasedOnExit AcqStyle.manual (Except.ok ()) = true
    ∧ releasedOnExit AcqStyle.manual (Except.error ()) = false := by
  exact ⟨fun o => rfl, rfl, rfl⟩

lemma iterateAll_spec :
    ∀ r : CursorResult,
      r.iterateAll.1 = r.remaining ∧ r.iterateAll.2 = ⟨[]⟩ := by
  intro r
  obtain ⟨l⟩ := r
  induction l with
  | nil => exact ⟨rfl, rfl⟩
  | cons a rest ih => simpa [CursorResult.iterateAll, consumeRows] using ih

/-- C10: a SELECT result is a single-pass cursor: one complete iteration
yields every remaining row and exhausts it, so the second, third and
fourth consecutive loops over the same result each yield no rows. -/
theorem result_cursor_is_single_pass (r : CursorResult) :
    r.iterateAll.1 = r.remaining
    ∧ r.iterateAll.2.iterateAll.1 = []
    ∧ r.iterateAll.2.iterateAll.2.iterateAll.1 = []
    ∧ r.iterateAll.2.iterateAll.2.iterateAll.2.iterateAll.1 = [] := by
  have h := iterateAll_spec r
  refine ⟨h.1, ?_, ?_, ?_⟩ <;> rw [h.2] <;> rfl
